import Mathlib

/-!
Shallow embedding of the Instagram profile fetcher service (src/main.py).

The service is a FastAPI app with one lookup endpoint, an in-memory
TTLCache (cachetools, maxsize 1000, ttl 3600), and a slowapi rate limiter
("10/minute", fixed window keyed by client address).  The external
collaborator (instaloader) is modelled as an oracle: each request carries
the outcome the library would produce for it.  Machine integers are Nat/Int;
time is a Nat parameter passed to every operation that reads the clock.
-/

/-- Python str.lower restricted to ASCII letters (instagram usernames are
ASCII, so this agrees with the source on every input the service sees). -/
def pyLowerChar (c : Char) : Char :=
  if 65 ≤ c.toNat ∧ c.toNat ≤ 90 then Char.ofNat (c.toNat + 32) else c

/-- username.lower() as used at lines 85, 87, 95 and 122 of src/main.py. -/
def pyLower (s : String) : String := String.mk (s.data.map pyLowerChar)

/-- The pydantic response model ProfileData (src/main.py lines 36-44). -/
structure ProfileData where
  username : String
  followers : Int
  following : Int
  dp : String
  is_verified : Bool
  posts_count : Int
  bio : Option String
  full_name : Option String
deriving DecidableEq

/-- The raw fields instaloader.Profile exposes, as read at lines 103 and
110-118.  `userid` is Option Nat so that the Python falsy test
`not profile.userid` (None or 0) can be stated. -/
structure RawProfile where
  userid : Option Nat
  username : String
  followers : Int
  followees : Int
  profile_pic_url : String
  is_verified : Bool
  mediacount : Int
  biography : Option String
  full_name : Option String
deriving DecidableEq

/-- `not profile.userid` from line 103: Python falsiness of the identifier. -/
def pyFalsyUserid : Option Nat → Bool
  | none => true
  | some n => n == 0

/-- The ProfileData construction of lines 110-119: direct field mapping. -/
def mkProfileData (p : RawProfile) : ProfileData :=
  { username := p.username
    followers := p.followers
    following := p.followees
    dp := p.profile_pic_url
    is_verified := p.is_verified
    posts_count := p.mediacount
    bio := p.biography
    full_name := p.full_name }

/-- What one call to the external source (instaloader) does for a given
request: either it returns a raw profile, or it raises one of the
exception kinds dispatched on at lines 96 and 127-150. -/
inductive FetchOutcome where
  | success (raw : RawProfile)
  | notExists (msg : String)
  | connErr (msg : String)
  | loaderErr (msg : String)
  | unexpected (msg : String)
deriving DecidableEq

/-- The exceptions that can cross the outer `try` of the handler.
`httpExc` is fastapi.HTTPException, which subclasses Exception and is
therefore caught by the catch-all at line 145. -/
inductive PyExc where
  | httpExc (status : Nat) (error : String) (details : String)
  | profileNotExists (msg : String)
  | connectionExc (msg : String)
  | instaloaderExc (msg : String)
  | otherExc (msg : String)
deriving DecidableEq

/-- Body of an error response: the handler raises HTTPException whose
detail is the dict \x7b"error": ..., "details": ...\x7d (`fields`); the
slowapi RateLimitExceeded carries a plain string detail (`plain`). -/
inductive Detail where
  | plain (s : String)
  | fields (error : String) (details : String)
deriving DecidableEq

/-- Whether a detail is the \x7berror, details\x7d dict shape. -/
def Detail.isFields : Detail → Bool
  | .plain _ => false
  | .fields _ _ => true

/-- An HTTP error as raised by the service: status code plus detail. -/
structure HTTPErr where
  status : Nat
  detail : Detail
deriving DecidableEq

/-- The response of one request: 200 with ProfileData, or an error. -/
inductive Response where
  | ok (status : Nat) (data : ProfileData)
  | err (e : HTTPErr)
deriving DecidableEq

/-- Status code of a response. -/
def Response.status : Response → Nat
  | .ok s _ => s
  | .err e => e.status

/-- Whether a response is an error. -/
def Response.isErr : Response → Bool
  | .ok _ _ => false
  | .err _ => true

/-- The apostrophe character (used to build Python strings verbatim). -/
def sqChar : Char := Char.ofNat 39

/-- Python repr of a short string: single quotes, or double quotes when the
string itself holds an apostrophe (none of the strings here holds both). -/
def pyStrLit (s : String) : String :=
  if s.contains sqChar then "\"" ++ s ++ "\"" else
    String.singleton sqChar ++ s ++ String.singleton sqChar

/-- str() of the detail dict \x7b"error": e, "details": d\x7d of a raised
HTTPException, as Python formats it. -/
def pyDictStr (error details : String) : String :=
  "\x7b" ++ pyStrLit "error" ++ ": " ++ pyStrLit error ++ ", "
    ++ pyStrLit "details" ++ ": " ++ pyStrLit details ++ "\x7d"

/-- str(e) for e a fastapi/starlette HTTPException: "status: detail". -/
def strOfHTTPExc (status : Nat) (error details : String) : String :=
  toString status ++ ": " ++ pyDictStr error details

/-- The f-string at line 99: "@\x7busername\x7d doesn't exist on Instagram"
with the original (unlowered) username interpolated. -/
def notExistsDetails (username : String) : String :=
  "@" ++ username ++ " doesn't exist on Instagram"

/-- The except chain at lines 127-150 of src/main.py, applied to whatever
exception escapes the try block.  ProfileNotExistsException maps to 404,
ConnectionException to 503, other InstaloaderException to 500, and
everything else - including a raised fastapi.HTTPException, which is an
Exception - falls into the catch-all 500 at lines 145-150. -/
def handleExc : PyExc → HTTPErr
  | .profileNotExists msg => ⟨404, .fields "Profile not found" msg⟩
  | .connectionExc _ =>
      ⟨503, .fields "Instagram connection failed"
        "Instagram may be blocking requests. Try again later."⟩
  | .instaloaderExc msg => ⟨500, .fields "Instagram data fetch failed" msg⟩
  | .httpExc status error details =>
      ⟨500, .fields "Internal server error" (strOfHTTPExc status error details)⟩
  | .otherExc msg => ⟨500, .fields "Internal server error" msg⟩

/-- cachetools.TTLCache state: maxsize, ttl, and the entries
(key, value, expiry time) in access order, least recently used first. -/
structure TTLCache where
  maxsize : Nat
  ttl : Nat
  entries : List (String × ProfileData × Nat)
deriving DecidableEq

/-- Whether an entry is still live at `now` (cachetools: now < expires). -/
def entryLive (now : Nat) (e : String × ProfileData × Nat) : Bool :=
  decide (now < e.2.2)

/-- `key in cache` (TTLCache.__contains__): key present and not expired;
no mutation, no purge. -/
def TTLCache.contains (c : TTLCache) (now : Nat) (k : String) : Bool :=
  match c.entries.find? (fun e => e.1 == k) with
  | some e => entryLive now e
  | none => false

/-- Move the entry of key k to the most-recently-used end (the
move_to_end performed by TTLCache.__getitem__ via its link lookup). -/
def TTLCache.moveToEnd (c : TTLCache) (k : String) : TTLCache :=
  match c.entries.find? (fun e => e.1 == k) with
  | some e => { c with entries := c.entries.filter (fun e2 => !(e2.1 == k)) ++ [e] }
  | none => c

/-- cache[key] (TTLCache.__getitem__ at `now`): the stored value when the
entry is live, none when missing or expired; the looked-up link moves to
the recently-used end, the expiry time is NOT touched. -/
def TTLCache.getItem (c : TTLCache) (now : Nat) (k : String) :
    Option ProfileData × TTLCache :=
  match c.entries.find? (fun e => e.1 == k) with
  | some e => (if entryLive now e then some e.2.1 else none, c.moveToEnd k)
  | none => (none, c)

/-- cache[key] = v (TTLCache.__setitem__ at `now`), also returning how many
entries were evicted for capacity.  The source first purges expired
entries, then - for a new key only - pops least-recently-used entries
until there is room, and finally (re)inserts the key at the
recently-used end with expiry now + ttl. -/
def TTLCache.putE (c : TTLCache) (now : Nat) (k : String) (v : ProfileData) :
    TTLCache × Nat :=
  let live := c.entries.filter (entryLive now)
  if (live.find? (fun e => e.1 == k)).isSome then
    ({ c with entries := live.filter (fun e => !(e.1 == k)) ++ [(k, v, now + c.ttl)] }, 0)
  else
    let n := live.length + 1 - c.maxsize
    ({ c with entries := live.drop n ++ [(k, v, now + c.ttl)] }, n)

/-- cache[key] = v, without the eviction count. -/
def TTLCache.put (c : TTLCache) (now : Nat) (k : String) (v : ProfileData) :
    TTLCache :=
  (c.putE now k v).1

/-- len(cache) at `now` (TTLCache.__len__ purges expired entries first, so
it counts exactly the live ones). -/
def TTLCache.len (c : TTLCache) (now : Nat) : Nat :=
  (c.entries.filter (entryLive now)).length

/-- profile_cache = TTLCache(maxsize=1000, ttl=3600) (src/main.py line 25),
in its initial empty state. -/
def profile_cache : TTLCache := ⟨1000, 3600, []⟩

/-- One per-identity budget of the slowapi/limits fixed-window strategy:
the window opened at `windowStart` (expiring 60 seconds later) and has
seen `count` requests (admitted or not - limits increments the counter on
every hit). -/
structure Budget where
  windowStart : Nat
  count : Nat
deriving DecidableEq

/-- The limiter storage: one budget per client identity. -/
abbrev LimState := List (String × Budget)

/-- The stored budget of an identity. -/
def lookupBudget (st : LimState) (id : String) : Option Budget :=
  match st.find? (fun e => e.1 == id) with
  | some e => some e.2
  | none => none

/-- Store a budget for an identity (update in place or append). -/
def setBudget (st : LimState) (id : String) (b : Budget) : LimState :=
  match st with
  | [] => [(id, b)]
  | e :: rest => if e.1 == id then (id, b) :: rest else e :: setBudget rest id b

/-- The outcome of one request as seen by the limiter: who, when, whether
it was admitted, and which window (by its start time) it was counted in. -/
structure ReqTag where
  id : String
  time : Nat
  admitted : Bool
  wstart : Nat
deriving DecidableEq

/-- One request through limiter.limit("10/minute") (src/main.py lines 22
and 75): the limits fixed-window strategy with the memory storage.  A
counter opened at time s expires at s + 60; an expired or absent counter
is reset to 1 and the request admitted; otherwise the counter increments
and the request is admitted iff the new value is at most 10. -/
def limiterStep (st : LimState) (id : String) (now : Nat) : ReqTag × LimState :=
  match lookupBudget st id with
  | some b =>
    if now < b.windowStart + 60 then
      (⟨id, now, decide (b.count + 1 ≤ 10), b.windowStart⟩,
        setBudget st id ⟨b.windowStart, b.count + 1⟩)
    else
      (⟨id, now, true, now⟩, setBudget st id ⟨now, 1⟩)
  | none => (⟨id, now, true, now⟩, setBudget st id ⟨now, 1⟩)

/-- Process a list of (identity, time) requests, oldest first, collecting
each request's tag. -/
def runTrace (trace : List (String × Nat)) (st : LimState) :
    List ReqTag × LimState :=
  match trace with
  | [] => ([], st)
  | (id, t) :: rest =>
    let p := limiterStep st id t
    let q := runTrace rest p.2
    (p.1 :: q.1, q.2)

/-- How many requests of `id` were admitted into the window that opened
at `s`. -/
def admittedCount (out : List ReqTag) (id : String) (s : Nat) : Nat :=
  (out.filter (fun r => r.id == id && r.admitted && r.wstart == s)).length

/-- The 429 raised by slowapi when the limit is hit: RateLimitExceeded is
an HTTPException(429) whose detail is the plain text str(limit.limit) =
"10 per 1 minute" (the app registers no slowapi exception handler, so
FastAPI's stock HTTPException handling serves it). -/
def rate_limit_exceeded : HTTPErr := ⟨429, .plain "10 per 1 minute"⟩

/-- The try block of get_instagram_profile (src/main.py lines 83-125):
cache probe, external fetch, validity check, construction and cache fill.
Returns the exception that escapes the block or the profile plus the
updated cache, and whether the external source was invoked. -/
def tryMain (cache : TTLCache) (now : Nat) (username : String)
    (fetch : FetchOutcome) : Except PyExc (ProfileData × TTLCache) × Bool :=
  let key := pyLower username
  if cache.contains now key then
    match (cache.getItem now key).1 with
    | some pd => (.ok (pd, (cache.getItem now key).2), false)
    | none => (.error (.otherExc "KeyError"), false)
  else
    match fetch with
    | .notExists _ =>
        -- line 96: the inner except converts the instaloader exception
        -- into an HTTPException(404) raised inside the outer try
        (.error (.httpExc 404 "Profile not found" (notExistsDetails username)), true)
    | .connErr msg => (.error (.connectionExc msg), true)
    | .loaderErr msg => (.error (.instaloaderExc msg), true)
    | .unexpected msg => (.error (.otherExc msg), true)
    | .success raw =>
      if pyFalsyUserid raw.userid then
        (.error (.httpExc 404 "Profile not found" "Invalid profile data received"), true)
      else
        let pd := mkProfileData raw
        (.ok (pd, cache.put now key pd), true)

/-- The whole endpoint body (src/main.py lines 76-150): the try block,
then the except chain.  On an exception the cache is as it was before the
request (the only write, line 122, happens on the success path). -/
def get_instagram_profile (cache : TTLCache) (now : Nat) (username : String)
    (fetch : FetchOutcome) : Response × TTLCache × Bool :=
  match tryMain cache now username fetch with
  | (.ok (pd, c), fetched) => (.ok 200 pd, c, fetched)
  | (.error e, fetched) => (.err (handleExc e), cache, fetched)

/-- The service state shared by all requests: limiter storage and cache. -/
structure AppState where
  limiter : LimState
  cache : TTLCache
deriving DecidableEq

/-- One full request to GET /instagram/\x7busername\x7d: the slowapi
decorator runs first (raising the 429 before the handler body when the
budget is exhausted), then the handler body. -/
def handleRequest (st : AppState) (clientId username : String) (now : Nat)
    (fetch : FetchOutcome) : Response × AppState × Bool :=
  let p := limiterStep st.limiter clientId now
  if p.1.admitted then
    let r := get_instagram_profile st.cache now username fetch
    (r.1, ⟨p.2, r.2.1⟩, r.2.2)
  else
    (.err rate_limit_exceeded, ⟨p.2, st.cache⟩, false)

/-- The /health response body (src/main.py lines 152-159). -/
structure HealthBody where
  status : String
  timestamp : Nat
  cache_size : Nat
deriving DecidableEq

/-- GET /health: 200 with status, timestamp and len(profile_cache). -/
def health_check (c : TTLCache) (now : Nat) : Nat × HealthBody :=
  (200, ⟨"healthy", now, c.len now⟩)

/-- The GET routes the app registers (lines 68, 152, 178; the /static
mount at line 177 serves files, not a handler). -/
def appRoutes : List (String × String) :=
  [("GET", "/instagram/\x7busername\x7d"), ("GET", "/health"), ("GET", "/")]

/-- An operation on the shared cache, for stating invariants. -/
inductive CacheOp where
  | putOp (now : Nat) (k : String) (v : ProfileData)
  | getOp (now : Nat) (k : String)

/-- Apply one cache operation. -/
def applyOp (c : TTLCache) : CacheOp → TTLCache
  | .putOp now k v => c.put now k v
  | .getOp now k => (c.getItem now k).2

/-- Run a sequence of cache operations. -/
def runOps (c : TTLCache) (ops : List CacheOp) : TTLCache :=
  ops.foldl applyOp c

/-- A fixed record used when filling the cache with distinct keys. -/
def pd0 : ProfileData := ⟨"x", 0, 0, "", false, 0, none, none⟩

/-- Insert a list of keys in order (each holding pd0), counting the total
number of capacity evictions. -/
def insertAllE (c : TTLCache) (now : Nat) (keys : List String) : TTLCache × Nat :=
  keys.foldl (fun acc k =>
    let r := TTLCache.putE acc.1 now k pd0
    (r.1, acc.2 + r.2)) (c, 0)

/-- The n-th of an unbounded family of distinct cache keys. -/
def keyOfNat (n : Nat) : String := String.mk (List.replicate n 'a')

/-- A concrete structurally valid raw profile. -/
def rawValid : RawProfile :=
  ⟨some 7, "user", 10, 2, "http://pic", true, 3, some "b", some "f"⟩

/-- A concrete raw profile whose required identifier is falsy. -/
def rawInvalid : RawProfile :=
  ⟨some 0, "someuser", 5, 3, "http://pic", false, 1, none, none⟩

/-- A live cache probe yields the stored value. -/
theorem TTLCache.contains_getItem (c : TTLCache) (now : Nat) (k : String)
    (h : c.contains now k = true) : ∃ pd, (c.getItem now k).1 = some pd := by
  unfold TTLCache.contains at h
  unfold TTLCache.getItem
  cases hf : c.entries.find? (fun e => e.1 == k) with
  | none => simp [hf] at h
  | some e =>
    simp only [hf] at h
    exact ⟨e.2.1, by simp [hf, h]⟩

/-- C1: the claim says a profile-does-not-exist failure yields NotFound
(404) with details "@username doesn't exist...".  On the code, the
HTTPException(404) raised at line 97 is itself an Exception, so the
catch-all at line 145 converts it into a 500 "Internal server error":
the 404 never reaches the HTTP layer.  This theorem evaluates the
handler at the failing input "ghost". -/
theorem c1_not_exists_swallowed_into_500 :
    (get_instagram_profile profile_cache 0 "ghost" (.notExists "m")).1 =
      .err ⟨500, .fields "Internal server error"
        (strOfHTTPExc 404 "Profile not found" (notExistsDetails "ghost"))⟩
    ∧ (get_instagram_profile profile_cache 0 "ghost" (.notExists "m")).1.status ≠ 404
    ∧ (tryMain profile_cache 0 "ghost" (.notExists "m")).1 =
        .error (.httpExc 404 "Profile not found" (notExistsDetails "ghost")) := by
  exact ⟨rfl, by decide, rfl⟩

/-- C2: the claim says a structurally invalid record (falsy identifier)
yields NotFound (404) with details "invalid profile data received" and no
cache write.  The cache is indeed untouched, but the HTTPException(404)
raised at line 104 is caught by the catch-all at line 145, so the
response is 500 "Internal server error", not 404. -/
theorem c2_invalid_record_swallowed_into_500 :
    (get_instagram_profile profile_cache 0 "someuser" (.success rawInvalid)).1.status = 500
    ∧ (get_instagram_profile profile_cache 0 "someuser" (.success rawInvalid)).1.status ≠ 404
    ∧ (get_instagram_profile profile_cache 0 "someuser" (.success rawInvalid)).2.1 = profile_cache
    ∧ (tryMain profile_cache 0 "someuser" (.success rawInvalid)).1 =
        .error (.httpExc 404 "Profile not found" "Invalid profile data received") := by
  exact ⟨rfl, by decide, rfl, rfl⟩

/-- C3: on a cache miss, the failure kind of the fetch determines the
outcome exactly: a connectivity failure maps to 503 with the blocking
message, any other instaloader-reported failure to 500 with the source
message, and an unforeseen exception to 500 "Internal server error" with
its message; each detail is a plain string pair, never an exception
object. -/
theorem c3_failure_kind_determines_outcome (cache : TTLCache) (now : Nat)
    (username msg : String)
    (hmiss : cache.contains now (pyLower username) = false) :
    (get_instagram_profile cache now username (.connErr msg)).1 =
      .err ⟨503, .fields "Instagram connection failed"
        "Instagram may be blocking requests. Try again later."⟩
    ∧ (get_instagram_profile cache now username (.loaderErr msg)).1 =
      .err ⟨500, .fields "Instagram data fetch failed" msg⟩
    ∧ (get_instagram_profile cache now username (.unexpected msg)).1 =
      .err ⟨500, .fields "Internal server error" msg⟩ := by
  unfold get_instagram_profile tryMain
  simp [hmiss, handleExc]

/-- Witness for C3 at a concrete miss. -/
theorem c3_failure_kind_witness :
    (profile_cache.contains 0 (pyLower "Ghost") = false)
    ∧ ((get_instagram_profile profile_cache 0 "Ghost" (.connErr "boom")).1 =
        .err ⟨503, .fields "Instagram connection failed"
          "Instagram may be blocking requests. Try again later."⟩
      ∧ (get_instagram_profile profile_cache 0 "Ghost" (.loaderErr "boom")).1 =
        .err ⟨500, .fields "Instagram data fetch failed" "boom"⟩
      ∧ (get_instagram_profile profile_cache 0 "Ghost" (.unexpected "boom")).1 =
        .err ⟨500, .fields "Internal server error" "boom"⟩) :=
  ⟨by decide, c3_failure_kind_determines_outcome profile_cache 0 "Ghost" "boom" (by decide)⟩

/-- C5: a request denied by the rate limiter returns the 429 immediately:
the cache is exactly as before and the external source is not invoked. -/
theorem c5_rate_limited_frame (st : AppState) (clientId username : String)
    (now : Nat) (fetch : FetchOutcome)
    (hdeny : (limiterStep st.limiter clientId now).1.admitted = false) :
    (handleRequest st clientId username now fetch).1 = .err rate_limit_exceeded
    ∧ (handleRequest st clientId username now fetch).2.1.cache = st.cache
    ∧ (handleRequest st clientId username now fetch).2.2 = false := by
  unfold handleRequest
  simp [hdeny]

/-- Witness for C5: an identity with 10 consumed requests in the window. -/
theorem c5_rate_limited_witness :
    ((limiterStep (AppState.mk [("c", ⟨0, 10⟩)] profile_cache).limiter "c" 0).1.admitted = false)
    ∧ ((handleRequest ⟨[("c", ⟨0, 10⟩)], profile_cache⟩ "c" "alice" 0 (.connErr "x")).1 =
        .err rate_limit_exceeded
      ∧ (handleRequest ⟨[("c", ⟨0, 10⟩)], profile_cache⟩ "c" "alice" 0 (.connErr "x")).2.1.cache =
        (AppState.mk [("c", ⟨0, 10⟩)] profile_cache).cache
      ∧ (handleRequest ⟨[("c", ⟨0, 10⟩)], profile_cache⟩ "c" "alice" 0 (.connErr "x")).2.2 = false) :=
  ⟨by decide, c5_rate_limited_frame ⟨[("c", ⟨0, 10⟩)], profile_cache⟩ "c" "alice" 0 (.connErr "x") (by decide)⟩

/-- C6: when the lower-cased username has a live cache entry and the
limiter admits the request, the handler returns 200 with exactly the
cached record (whatever the fetch oracle would have produced) and the
external source is not invoked. -/
theorem c6_cache_hit_serves_cached_record (st : AppState)
    (clientId username : String) (now : Nat) (fetch : FetchOutcome)
    (pd : ProfileData)
    (hallow : (limiterStep st.limiter clientId now).1.admitted = true)
    (hhit : (st.cache.getItem now (pyLower username)).1 = some pd) :
    (handleRequest st clientId username now fetch).1 = .ok 200 pd
    ∧ (handleRequest st clientId username now fetch).2.2 = false := by
  have hcont : st.cache.contains now (pyLower username) = true := by
    unfold TTLCache.getItem at hhit
    unfold TTLCache.contains
    cases hf : st.cache.entries.find? (fun e => e.1 == pyLower username) with
    | none => simp [hf] at hhit
    | some e =>
      simp only [hf] at hhit ⊢
      by_cases hl : entryLive now e
      · exact hl
      · simp [hl] at hhit
  unfold handleRequest get_instagram_profile tryMain
  simp [hallow, hcont, hhit]

/-- Witness for C6: "alice" cached, "ALICE" requested. -/
theorem c6_cache_hit_witness :
    ((limiterStep (AppState.mk [] ⟨1000, 3600, [("alice", pd0, 100)]⟩).limiter "c" 0).1.admitted = true
      ∧ ((AppState.mk [] ⟨1000, 3600, [("alice", pd0, 100)]⟩).cache.getItem 0 (pyLower "ALICE")).1 = some pd0)
    ∧ ((handleRequest ⟨[], ⟨1000, 3600, [("alice", pd0, 100)]⟩⟩ "c" "ALICE" 0 (.connErr "x")).1 = .ok 200 pd0
      ∧ (handleRequest ⟨[], ⟨1000, 3600, [("alice", pd0, 100)]⟩⟩ "c" "ALICE" 0 (.connErr "x")).2.2 = false) :=
  ⟨⟨by decide, by decide⟩,
    c6_cache_hit_serves_cached_record ⟨[], ⟨1000, 3600, [("alice", pd0, 100)]⟩⟩
      "c" "ALICE" 0 (.connErr "x") pd0 (by decide) (by decide)⟩

/-- C9: for every cache state and time, GET /health returns 200 with
status "healthy", the current timestamp, and a cache_size equal to the
number of non-expired entries; any currently contained key makes that
count positive. -/
theorem c9_health_reports_live_cache_size (c : TTLCache) (now : Nat) :
    (health_check c now).1 = 200
    ∧ (health_check c now).2.status = "healthy"
    ∧ (health_check c now).2.timestamp = now
    ∧ (health_check c now).2.cache_size = (c.entries.filter (entryLive now)).length
    ∧ (∀ k, c.contains now k = true → 0 < (health_check c now).2.cache_size) := by
  refine ⟨rfl, rfl, rfl, rfl, ?_⟩
  intro k hk
  unfold TTLCache.contains at hk
  cases hf : c.entries.find? (fun e => e.1 == k) with
  | none => simp [hf] at hk
  | some e =>
    simp only [hf] at hk
    have hmem : e ∈ c.entries := List.mem_of_find?_eq_some hf
    have : e ∈ c.entries.filter (entryLive now) := List.mem_filter.mpr ⟨hmem, hk⟩
    have hlen : 0 < (c.entries.filter (entryLive now)).length :=
      List.length_pos.mpr (fun hnil => by simp [hnil] at this)
    simpa [health_check, TTLCache.len] using hlen

/-- Witness for C9 at a cache with one live and one expired entry. -/
theorem c9_health_witness :
    (TTLCache.contains ⟨3, 10, [("a", pd0, 1), ("b", pd0, 9)]⟩ 5 "b" = true)
    ∧ 0 < (health_check ⟨3, 10, [("a", pd0, 1), ("b", pd0, 9)]⟩ 5).2.cache_size :=
  ⟨by decide,
    (c9_health_reports_live_cache_size ⟨3, 10, [("a", pd0, 1), ("b", pd0, 9)]⟩ 5).2.2.2.2 "b" (by decide)⟩

/-- C10: whenever a request ends in any non-success outcome (rate
limited, or any error mapped by the except chain), the profile cache
after the request is exactly the cache before it; only the success path
writes the cache. -/
theorem c10_error_outcomes_leave_cache_unchanged (st : AppState)
    (clientId username : String) (now : Nat) (fetch : FetchOutcome)
    (herr : (handleRequest st clientId username now fetch).1.isErr = true) :
    (handleRequest st clientId username now fetch).2.1.cache = st.cache := by
  unfold handleRequest at *
  cases hadm : (limiterStep st.limiter clientId now).1.admitted with
  | false => simp [hadm]
  | true =>
    simp only [hadm, if_true] at herr ⊢
    unfold get_instagram_profile at herr ⊢
    cases htm : tryMain st.cache now username fetch with
    | mk res fetched =>
      cases res with
      | ok p => simp [htm] at herr; exact absurd herr (by simp [Response.isErr])
      | error e => simp [htm]

/-- Witness for C10: a connection failure on an empty state. -/
theorem c10_error_witness :
    ((handleRequest ⟨[], profile_cache⟩ "c" "u" 0 (.connErr "x")).1.isErr = true)
    ∧ (handleRequest ⟨[], profile_cache⟩ "c" "u" 0 (.connErr "x")).2.1.cache =
        (AppState.mk [] profile_cache).cache :=
  ⟨by decide,
    c10_error_outcomes_leave_cache_unchanged ⟨[], profile_cache⟩ "c" "u" 0 (.connErr "x") (by decide)⟩

/-- C4 counterexample: the profile lookup route the app registers is
GET /instagram/\x7busername\x7d, not GET /profile/\x7busername\x7d, and
the 429 served for a rate-limited request carries slowapi's plain-text
default detail, not an \x7berror, details\x7d body. -/
theorem c4_route_and_429_body_counterexample :
    ((appRoutes.map Prod.snd).contains "/profile/\x7busername\x7d" = false)
    ∧ ((appRoutes.map Prod.snd).contains "/instagram/\x7busername\x7d" = true)
    ∧ rate_limit_exceeded.status = 429
    ∧ rate_limit_exceeded.detail.isFields = false := by
  decide

/-- C4 amended: the lookup lives at GET /instagram/\x7busername\x7d; a
success is a 200 with the ProfileData record; the except chain assigns
404 to a profile-not-exists exception, 503 to a connection failure, 500
to any other instaloader failure and to unforeseen exceptions, each with
an \x7berror, details\x7d detail; a rate-limited request gets a 429
whose body is the stock plain-text detail. -/
theorem c4_http_surface (msg : String) :
    appRoutes.contains ("GET", "/instagram/\x7busername\x7d") = true
    ∧ appRoutes.contains ("GET", "/health") = true
    ∧ (handleExc (.profileNotExists msg)).status = 404
    ∧ (handleExc (.connectionExc msg)).status = 503
    ∧ (handleExc (.instaloaderExc msg)).status = 500
    ∧ (handleExc (.otherExc msg)).status = 500
    ∧ (handleExc (.profileNotExists msg)).detail.isFields = true
    ∧ (handleExc (.connectionExc msg)).detail.isFields = true
    ∧ (handleExc (.instaloaderExc msg)).detail.isFields = true
    ∧ (handleExc (.otherExc msg)).detail.isFields = true
    ∧ rate_limit_exceeded.status = 429
    ∧ rate_limit_exceeded.detail.isFields = false
    ∧ (get_instagram_profile profile_cache 5 "User" (.success rawValid)).1 =
        .ok 200 (mkProfileData rawValid) := by
  exact ⟨by decide, by decide, rfl, rfl, rfl, rfl, rfl, rfl, rfl, rfl, rfl, rfl, rfl⟩

/-- Well-formedness of a cache state: at most one entry per key, and the
number of entries within the configured capacity. -/
def cacheWF (c : TTLCache) : Prop :=
  (c.entries.map Prod.fst).Nodup ∧ c.entries.length ≤ c.maxsize


/-- Branch equation for a put whose key is among the live entries. -/
theorem TTLCache.putE_present (c : TTLCache) (now : Nat) (k : String)
    (v : ProfileData) (e : String × ProfileData × Nat)
    (hfe : (c.entries.filter (entryLive now)).find? (fun x => x.1 == k) = some e) :
    c.putE now k v =
      ({ c with entries := ((c.entries.filter (entryLive now)).filter
          (fun x => !(x.1 == k)) ++ [(k, v, now + c.ttl)]) }, 0) := by
  simp [TTLCache.putE, hfe]

/-- Branch equation for a put whose key is not among the live entries. -/
theorem TTLCache.putE_absent (c : TTLCache) (now : Nat) (k : String)
    (v : ProfileData)
    (hfn : (c.entries.filter (entryLive now)).find? (fun x => x.1 == k) = none) :
    c.putE now k v =
      ({ c with entries := ((c.entries.filter (entryLive now)).drop
          ((c.entries.filter (entryLive now)).length + 1 - c.maxsize)
          ++ [(k, v, now + c.ttl)]) },
        (c.entries.filter (entryLive now)).length + 1 - c.maxsize) := by
  simp [TTLCache.putE, hfn]

/-- A put keeps the cache well-formed (capacity at least 1). -/
theorem TTLCache.putE_wf (c : TTLCache) (now : Nat) (k : String)
    (v : ProfileData) (hms : 1 ≤ c.maxsize) (hw : cacheWF c) :
    cacheWF (c.putE now k v).1 := by
  obtain ⟨hnd, hlen⟩ := hw
  have hsub : (c.entries.filter (entryLive now)).Sublist c.entries :=
    List.filter_sublist c.entries
  have hlnd : ((c.entries.filter (entryLive now)).map Prod.fst).Nodup :=
    List.Nodup.sublist (hsub.map Prod.fst) hnd
  have hllen : (c.entries.filter (entryLive now)).length ≤ c.maxsize :=
    le_trans hsub.length_le hlen
  cases hf : (c.entries.filter (entryLive now)).find? (fun x => x.1 == k) with
  | some e =>
    rw [TTLCache.putE_present c now k v e hf]
    have hshort : ((c.entries.filter (entryLive now)).filter
        (fun x => !(x.1 == k))).length < (c.entries.filter (entryLive now)).length := by
      refine List.length_filter_lt_length_iff_exists.mpr
        ⟨e, List.mem_of_find?_eq_some hf, ?_⟩
      have hbeq := List.find?_some hf
      simp only [Bool.not_eq_true]
      simpa using hbeq
    constructor
    · simp only [List.map_append]
      rw [List.nodup_append]
      refine ⟨List.Nodup.sublist (((List.filter_sublist _).trans hsub).map Prod.fst) hnd,
        by simp, ?_⟩
      intro a ha hb
      simp only [List.mem_map] at ha
      obtain ⟨x, hx, hxa⟩ := ha
      have hxk := List.of_mem_filter hx
      have hne : x.1 ≠ k := by simpa using hxk
      simp only [List.map_cons, List.map_nil, List.mem_singleton] at hb
      exact hne (hxa.trans hb)
    · simp only [List.length_append, List.length_singleton]
      omega
  | none =>
    rw [TTLCache.putE_absent c now k v hf]
    have hnk : ∀ x ∈ c.entries.filter (entryLive now), ¬(x.1 == k) = true :=
      List.find?_eq_none.mp hf
    constructor
    · simp only [List.map_append]
      rw [List.nodup_append]
      refine ⟨List.Nodup.sublist ((List.drop_sublist _ _).trans hsub |>.map Prod.fst) hnd,
        by simp, ?_⟩
      intro a ha hb
      simp only [List.mem_map] at ha
      obtain ⟨x, hx, hxa⟩ := ha
      have hxl : x ∈ c.entries.filter (entryLive now) :=
        (List.drop_sublist _ _).mem hx
      have hne : x.1 ≠ k := by simpa using hnk x hxl
      simp only [List.map_cons, List.map_nil, List.mem_singleton] at hb
      exact hne (hxa.trans hb)
    · simp only [List.length_append, List.length_singleton, List.length_drop]
      omega

/-- The second component of a getItem on an absent key is the cache itself. -/
theorem TTLCache.getItem_snd_none (c : TTLCache) (now : Nat) (k : String)
    (hf : c.entries.find? (fun x => x.1 == k) = none) :
    (c.getItem now k).2 = c := by
  unfold TTLCache.getItem
  rw [hf]

/-- The second component of a getItem on a present key moves it to the end. -/
theorem TTLCache.getItem_snd_some (c : TTLCache) (now : Nat) (k : String)
    (e : String × ProfileData × Nat)
    (hf : c.entries.find? (fun x => x.1 == k) = some e) :
    (c.getItem now k).2 =
      { c with entries := (c.entries.filter (fun x => !(x.1 == k)) ++ [e]) } := by
  unfold TTLCache.getItem TTLCache.moveToEnd
  rw [hf]

/-- A read keeps the cache well-formed. -/
theorem TTLCache.getItem_wf (c : TTLCache) (now : Nat) (k : String)
    (hw : cacheWF c) : cacheWF (c.getItem now k).2 := by
  obtain ⟨hnd, hlen⟩ := hw
  cases hf : c.entries.find? (fun x => x.1 == k) with
  | none => rw [TTLCache.getItem_snd_none c now k hf]; exact ⟨hnd, hlen⟩
  | some e =>
    rw [TTLCache.getItem_snd_some c now k e hf]
    have hbeq := List.find?_some hf
    have hek : e.1 = k := by simpa using hbeq
    have hmem : e ∈ c.entries := List.mem_of_find?_eq_some hf
    have hshort : (c.entries.filter (fun x => !(x.1 == k))).length < c.entries.length := by
      refine List.length_filter_lt_length_iff_exists.mpr ⟨e, hmem, ?_⟩
      simp [hek]
    constructor
    · simp only [List.map_append]
      rw [List.nodup_append]
      refine ⟨List.Nodup.sublist ((List.filter_sublist _).map Prod.fst) hnd,
        by simp, ?_⟩
      intro a ha hb
      simp only [List.mem_map] at ha
      obtain ⟨x, hx, hxa⟩ := ha
      have hxk := List.of_mem_filter hx
      have hne : x.1 ≠ k := by simpa using hxk
      simp only [List.map_cons, List.map_nil, List.mem_singleton] at hb
      exact hne ((hxa.trans hb).trans hek)
    · simp only [List.length_append, List.length_singleton]
      omega

/-- A put never changes maxsize or ttl. -/
theorem TTLCache.putE_fields (c : TTLCache) (now : Nat) (k : String)
    (v : ProfileData) :
    (c.putE now k v).1.maxsize = c.maxsize ∧ (c.putE now k v).1.ttl = c.ttl := by
  cases hf : (c.entries.filter (entryLive now)).find? (fun x => x.1 == k) with
  | some e => rw [TTLCache.putE_present c now k v e hf]; exact ⟨rfl, rfl⟩
  | none => rw [TTLCache.putE_absent c now k v hf]; exact ⟨rfl, rfl⟩

/-- A read never changes maxsize or ttl. -/
theorem TTLCache.getItem_fields (c : TTLCache) (now : Nat) (k : String) :
    (c.getItem now k).2.maxsize = c.maxsize ∧ (c.getItem now k).2.ttl = c.ttl := by
  cases hf : c.entries.find? (fun x => x.1 == k) with
  | none => rw [TTLCache.getItem_snd_none c now k hf]; exact ⟨rfl, rfl⟩
  | some e => rw [TTLCache.getItem_snd_some c now k e hf]; exact ⟨rfl, rfl⟩

/-- One cache operation preserves well-formedness and the configuration. -/
theorem applyOp_wf (c : TTLCache) (op : CacheOp) (hms : 1 ≤ c.maxsize)
    (hw : cacheWF c) :
    cacheWF (applyOp c op) ∧ (applyOp c op).maxsize = c.maxsize
    ∧ (applyOp c op).ttl = c.ttl := by
  cases op with
  | putOp now k v =>
    exact ⟨TTLCache.putE_wf c now k v hms hw,
      (TTLCache.putE_fields c now k v).1, (TTLCache.putE_fields c now k v).2⟩
  | getOp now k =>
    exact ⟨TTLCache.getItem_wf c now k hw,
      (TTLCache.getItem_fields c now k).1, (TTLCache.getItem_fields c now k).2⟩

/-- Any sequence of operations preserves well-formedness and configuration. -/
theorem runOps_wf (ops : List CacheOp) : ∀ c : TTLCache, 1 ≤ c.maxsize → cacheWF c →
    cacheWF (runOps c ops) ∧ (runOps c ops).maxsize = c.maxsize
    ∧ (runOps c ops).ttl = c.ttl := by
  induction ops with
  | nil => exact fun c _ hw => ⟨hw, rfl, rfl⟩
  | cons op rest ih =>
    intro c hms hw
    obtain ⟨hw1, hm1, ht1⟩ := applyOp_wf c op hms hw
    obtain ⟨hw2, hm2, ht2⟩ := ih (applyOp c op) (hm1 ▸ hms) hw1
    exact ⟨hw2, by rw [show runOps c (op :: rest) = runOps (applyOp c op) rest from rfl, hm2, hm1],
      by rw [show runOps c (op :: rest) = runOps (applyOp c op) rest from rfl, ht2, ht1]⟩

/-- Entries as they stand after inserting keys at time 0 into a ttl-3600
cache: value pd0, expiry 3600. -/
def annot (ks : List String) : List (String × ProfileData × Nat) :=
  ks.map (fun k => (k, pd0, 3600))

/-- At time 0 nothing inserted at time 0 has expired. -/
theorem annot_filter_live (ks : List String) :
    (annot ks).filter (entryLive 0) = annot ks := by
  refine List.filter_eq_self.mpr ?_
  intro e he
  simp only [annot, List.mem_map] at he
  obtain ⟨k, _, hk⟩ := he
  subst hk
  rfl

/-- A key not among ks is not found among its entries. -/
theorem annot_find_none (ks : List String) (k : String) (hk : k ∉ ks) :
    (annot ks).find? (fun x => x.1 == k) = none := by
  refine List.find?_eq_none.mpr ?_
  intro x hx
  simp only [annot, List.mem_map] at hx
  obtain ⟨k2, hk2, hx2⟩ := hx
  subst hx2
  simp only [beq_iff_eq]
  intro h
  exact hk (h ▸ hk2)

/-- Filling an un-full cache with fresh distinct keys evicts nothing and
appends each key in order. -/
theorem insertAllE_fill : ∀ (keys la : List String),
    (la ++ keys).Nodup → la.length + keys.length ≤ 1000 →
    insertAllE ⟨1000, 3600, annot la⟩ 0 keys = (⟨1000, 3600, annot (la ++ keys)⟩, 0) := by
  intro keys
  induction keys with
  | nil => intro la _ _; simp [insertAllE]
  | cons k rest ih =>
    intro la hnd hlen
    have hkla : k ∉ la := by
      rw [List.nodup_append] at hnd
      intro hmem
      exact hnd.2.2 hmem (by simp)
    have hla1 : la.length + 1 + rest.length ≤ 1000 := by
      simp only [List.length_cons] at hlen
      omega
    have h0 : (((⟨1000, 3600, annot la⟩ : TTLCache).entries).filter (entryLive 0)).find?
        (fun x => x.1 == k) = none := by
      show ((annot la).filter (entryLive 0)).find? (fun x => x.1 == k) = none
      rw [annot_filter_live]
      exact annot_find_none la k hkla
    have hstep : TTLCache.putE ⟨1000, 3600, annot la⟩ 0 k pd0 =
        (⟨1000, 3600, annot (la ++ [k])⟩, 0) := by
      rw [TTLCache.putE_absent _ 0 k pd0 h0]
      have hzero : ((((⟨1000, 3600, annot la⟩ : TTLCache).entries).filter
          (entryLive 0)).length + 1 - (⟨1000, 3600, annot la⟩ : TTLCache).maxsize) = 0 := by
        show ((annot la).filter (entryLive 0)).length + 1 - 1000 = 0
        rw [annot_filter_live]
        simp only [annot, List.length_map]
        omega
      rw [hzero]
      show ((⟨1000, 3600, (((annot la).filter (entryLive 0)).drop 0 ++ [(k, pd0, 0 + 3600)])⟩ : TTLCache),
          (0 : Nat)) = ((⟨1000, 3600, annot (la ++ [k])⟩ : TTLCache), (0 : Nat))
      rw [annot_filter_live, List.drop_zero]
      simp [annot, List.map_append]
    have hfold : insertAllE ⟨1000, 3600, annot la⟩ 0 (k :: rest) =
        insertAllE ⟨1000, 3600, annot (la ++ [k])⟩ 0 rest := by
      unfold insertAllE
      rw [List.foldl_cons]
      congr 1
      simp [hstep]
    rw [hfold, ih (la ++ [k]) (by simpa using hnd) (by simpa using hla1)]
    simp

/-- Inserting a fresh key into a full cache of 1000 live entries evicts
exactly the least-recently-used entry. -/
theorem TTLCache.putE_full (la : List String) (k : String) (hkla : k ∉ la)
    (hla : la.length = 1000) :
    TTLCache.putE ⟨1000, 3600, annot la⟩ 0 k pd0 =
      (⟨1000, 3600, annot (la.drop 1 ++ [k])⟩, 1) := by
  have h0 : (((⟨1000, 3600, annot la⟩ : TTLCache).entries).filter (entryLive 0)).find?
      (fun x => x.1 == k) = none := by
    show ((annot la).filter (entryLive 0)).find? (fun x => x.1 == k) = none
    rw [annot_filter_live]
    exact annot_find_none la k hkla
  rw [TTLCache.putE_absent _ 0 k pd0 h0]
  have hone : ((((⟨1000, 3600, annot la⟩ : TTLCache).entries).filter
      (entryLive 0)).length + 1 - (⟨1000, 3600, annot la⟩ : TTLCache).maxsize) = 1 := by
    show ((annot la).filter (entryLive 0)).length + 1 - 1000 = 1
    rw [annot_filter_live]
    simp only [annot, List.length_map]
    omega
  rw [hone]
  show ((⟨1000, 3600, (((annot la).filter (entryLive 0)).drop 1 ++ [(k, pd0, 0 + 3600)])⟩ : TTLCache),
      (1 : Nat)) = ((⟨1000, 3600, annot (la.drop 1 ++ [k])⟩ : TTLCache), (1 : Nat))
  rw [annot_filter_live]
  simp [annot, List.map_append, List.map_drop]

/-- Filling an empty 1000-capacity cache with 1001 distinct keys causes
exactly one eviction and ends at exactly 1000 entries. -/
theorem insertAllE_capacity (keys : List String) (hnd : keys.Nodup)
    (hlen : keys.length = 1001) :
    (insertAllE profile_cache 0 keys).2 = 1
    ∧ (insertAllE profile_cache 0 keys).1.entries.length = 1000 := by
  obtain ⟨klast, hdrop⟩ : ∃ a, keys.drop 1000 = [a] :=
    List.length_eq_one.mp (by rw [List.length_drop, hlen])
  have hsplit : keys.take 1000 ++ [klast] = keys := by
    rw [← hdrop]
    exact List.take_append_drop 1000 keys
  have htke : (keys.take 1000).length = 1000 := by
    rw [List.length_take]
    omega
  have hnd2 : (keys.take 1000 ++ [klast]).Nodup := by rw [hsplit]; exact hnd
  have hndtake : (keys.take 1000).Nodup := by
    rw [List.nodup_append] at hnd2
    exact hnd2.1
  have hkmem : klast ∉ keys.take 1000 := by
    rw [List.nodup_append] at hnd2
    intro hmem
    exact hnd2.2.2 hmem (by simp)
  have hfill := insertAllE_fill (keys.take 1000) [] (by simpa using hndtake)
    (by simp [htke])
  have hfull := TTLCache.putE_full (keys.take 1000) klast hkmem htke
  have hmain : insertAllE profile_cache 0 (keys.take 1000 ++ [klast]) =
      (⟨1000, 3600, annot ((keys.take 1000).drop 1 ++ [klast])⟩, 1) := by
    show insertAllE ⟨1000, 3600, annot []⟩ 0 (keys.take 1000 ++ [klast]) = _
    unfold insertAllE at hfill ⊢
    rw [List.foldl_append, hfill]
    simp only [List.foldl_cons, List.foldl_nil, List.nil_append]
    rw [hfull]
    simp
  rw [← hsplit, hmain]
  constructor
  · rfl
  · show (annot ((keys.take 1000).drop 1 ++ [klast])).length = 1000
    simp only [annot, List.length_map, List.length_append, List.length_drop,
      List.length_singleton]
    omega

/-- Moving the (unique) entry of a found key to the end only permutes the
entry list: nothing is added, removed, or re-stamped. -/
theorem moveToEnd_perm_aux (k : String) :
    ∀ (l : List (String × ProfileData × Nat)), (l.map Prod.fst).Nodup →
    ∀ e, l.find? (fun x => x.1 == k) = some e →
    (l.filter (fun x => !(x.1 == k)) ++ [e]).Perm l := by
  intro l
  induction l with
  | nil => intro _ e hf; simp at hf
  | cons x xs ih =>
    intro hnd e hf
    rw [List.map_cons, List.nodup_cons] at hnd
    by_cases hx : (x.1 == k) = true
    · have hex : x = e := by
        simp only [List.find?, hx] at hf
        exact Option.some_injective _ hf
      have hxk : x.1 = k := by simpa using hx
      have hxs : ∀ y ∈ xs, (y.1 == k) = false := by
        intro y hy
        have hyx : y.1 ≠ x.1 := by
          intro hcon
          exact hnd.1 (List.mem_map.mpr ⟨y, hy, hcon⟩)
        simpa [hxk] using fun hck => hyx (hck.trans hxk.symm)
      have hfil : xs.filter (fun y => !(y.1 == k)) = xs :=
        List.filter_eq_self.mpr (fun y hy => by simp [hxs y hy])
      simp only [List.filter_cons, hx, Bool.not_true, if_false, hfil, ← hex]
      exact List.perm_append_singleton x xs
    · have hx2 : (x.1 == k) = false := by simpa using hx
      have hf2 : xs.find? (fun y => y.1 == k) = some e := by
        simpa only [List.find?, hx2] using hf
      have hperm := ih hnd.2 e hf2
      simp only [List.filter_cons, hx2, Bool.not_false, if_true, List.cons_append]
      exact hperm.cons x

/-- A read leaves the multiset of entries - keys, values and expiry
times - unchanged: in particular it never extends any TTL. -/
theorem TTLCache.getItem_perm (c : TTLCache) (now : Nat) (k : String)
    (hnd : (c.entries.map Prod.fst).Nodup) :
    ((c.getItem now k).2).entries.Perm c.entries := by
  cases hf : c.entries.find? (fun x => x.1 == k) with
  | none => rw [TTLCache.getItem_snd_none c now k hf]
  | some e =>
    rw [TTLCache.getItem_snd_some c now k e hf]
    exact moveToEnd_perm_aux k c.entries hnd e hf

/-- A put stamps the inserted entry, placed at the recently-used end,
with expiry exactly now + ttl. -/
theorem TTLCache.put_getLast (c : TTLCache) (now : Nat) (k : String)
    (v : ProfileData) :
    (c.put now k v).entries.getLast? = some (k, v, now + c.ttl) := by
  unfold TTLCache.put
  cases hf : (c.entries.filter (entryLive now)).find? (fun x => x.1 == k) with
  | some e => rw [TTLCache.putE_present c now k v e hf]; exact List.getLast?_concat _
  | none => rw [TTLCache.putE_absent c now k v hf]; exact List.getLast?_concat _

/-- Distinct indices give distinct keys. -/
theorem keyOfNat_injective : Function.Injective keyOfNat := by
  intro a b h
  have ha : (keyOfNat a).data.length = a := by simp [keyOfNat]
  have hb : (keyOfNat b).data.length = b := by simp [keyOfNat]
  rw [← ha, ← hb, h]

/-- 1001 distinct cache keys. -/
def witnessKeys : List String := (List.range 1001).map keyOfNat

/-- C7: over every sequence of cache operations starting from
profile_cache, at most one entry per key coexists and the size never
exceeds 1000 (and the configuration stays maxsize 1000 / ttl 3600);
inserting 1001 distinct keys into the empty cache evicts exactly one
entry and ends at exactly 1000 entries; every insertion stamps its entry
with expiry now + ttl; and a read only permutes the entries, so no
expiry time is ever extended by a read. -/
theorem c7_cache_invariants :
    (∀ ops : List CacheOp,
      ((runOps profile_cache ops).entries.map Prod.fst).Nodup
      ∧ (runOps profile_cache ops).entries.length ≤ 1000
      ∧ (runOps profile_cache ops).maxsize = 1000
      ∧ (runOps profile_cache ops).ttl = 3600)
    ∧ (∀ keys : List String, keys.Nodup → keys.length = 1001 →
        (insertAllE profile_cache 0 keys).2 = 1
        ∧ (insertAllE profile_cache 0 keys).1.entries.length = 1000)
    ∧ (∀ (c : TTLCache) (now : Nat) (k : String) (v : ProfileData),
        (c.put now k v).entries.getLast? = some (k, v, now + c.ttl))
    ∧ (∀ (c : TTLCache) (now : Nat) (k : String),
        (c.entries.map Prod.fst).Nodup →
        ((c.getItem now k).2).entries.Perm c.entries) := by
  refine ⟨?_, insertAllE_capacity, TTLCache.put_getLast, TTLCache.getItem_perm⟩
  intro ops
  have hwf : cacheWF profile_cache := ⟨List.nodup_nil, by simp [profile_cache]⟩
  obtain ⟨⟨h1, h2⟩, h3, h4⟩ := runOps_wf ops profile_cache (by simp [profile_cache]) hwf
  have hm : (runOps profile_cache ops).maxsize = 1000 := by rw [h3]; rfl
  have ht : (runOps profile_cache ops).ttl = 3600 := by rw [h4]; rfl
  exact ⟨h1, hm ▸ h2, hm, ht⟩

/-- Witness for C7: the 1001 distinct witness keys. -/
theorem c7_cache_invariants_witness :
    (witnessKeys.Nodup ∧ witnessKeys.length = 1001
      ∧ ((profile_cache.entries.map Prod.fst).Nodup))
    ∧ ((insertAllE profile_cache 0 witnessKeys).2 = 1
      ∧ (insertAllE profile_cache 0 witnessKeys).1.entries.length = 1000)
    ∧ ((profile_cache.getItem 5 "a").2).entries.Perm profile_cache.entries :=
  ⟨⟨List.Nodup.map keyOfNat_injective (List.nodup_range 1001),
      by simp [witnessKeys], List.nodup_nil⟩,
    c7_cache_invariants.2.1 witnessKeys
      (List.Nodup.map keyOfNat_injective (List.nodup_range 1001))
      (by simp [witnessKeys]),
    c7_cache_invariants.2.2.2 profile_cache 5 "a" List.nodup_nil⟩

/-- Storing a budget makes it the one looked up for that identity. -/
theorem lookupBudget_setBudget_self (id : String) (b : Budget) :
    ∀ st : LimState, lookupBudget (setBudget st id b) id = some b := by
  intro st
  induction st with
  | nil => simp [setBudget, lookupBudget, List.find?]
  | cons e rest ih =>
    by_cases he : (e.1 == id) = true
    · simp [setBudget, he, lookupBudget, List.find?]
    · have he2 : (e.1 == id) = false := by simpa using he
      simp only [setBudget, he2, Bool.false_eq_true, if_false]
      simpa [lookupBudget, List.find?, he2] using ih

/-- Storing a budget for one identity leaves every other lookup alone. -/
theorem lookupBudget_setBudget_other (id id2 : String) (b : Budget)
    (h : id2 ≠ id) :
    ∀ st : LimState, lookupBudget (setBudget st id b) id2 = lookupBudget st id2 := by
  intro st
  have hne : (id == id2) = false := by
    simp only [beq_eq_false_iff_ne, ne_eq]
    exact fun hc => h hc.symm
  induction st with
  | nil => simp [setBudget, lookupBudget, List.find?, hne]
  | cons e rest ih =>
    by_cases he : (e.1 == id) = true
    · have heid : e.1 = id := by simpa using he
      simp [setBudget, he, lookupBudget, List.find?, hne, heid]
    · have he2 : (e.1 == id) = false := by simpa using he
      by_cases hd : (e.1 == id2) = true
      · simp [setBudget, he2, lookupBudget, List.find?, hd]
      · have hd2 : (e.1 == id2) = false := by simpa using hd
        simp only [setBudget, he2, Bool.false_eq_true, if_false]
        simpa [lookupBudget, List.find?, hd2] using ih

/-- The tag of a step carries the identity and time of the request. -/
theorem limiterStep_tag_id (st : LimState) (rid : String) (t : Nat) :
    (limiterStep st rid t).1.id = rid ∧ (limiterStep st rid t).1.time = t := by
  unfold limiterStep
  cases lookupBudget st rid with
  | none => exact ⟨rfl, rfl⟩
  | some b =>
    by_cases hw : t < b.windowStart + 60
    · simp [hw]
    · simp [hw]

/-- A step by one identity leaves every other identity's budget alone. -/
theorem limiterStep_other (st : LimState) (rid : String) (t : Nat)
    (id2 : String) (h : id2 ≠ rid) :
    lookupBudget (limiterStep st rid t).2 id2 = lookupBudget st id2 := by
  unfold limiterStep
  cases lookupBudget st rid with
  | none => exact lookupBudget_setBudget_other rid id2 _ h st
  | some b =>
    by_cases hw : t < b.windowStart + 60
    · simp only [hw, if_true]
      exact lookupBudget_setBudget_other rid id2 _ h st
    · simp only [hw, if_false]
      exact lookupBudget_setBudget_other rid id2 _ h st

/-- The admission decision and tag depend only on the identity's own
stored budget. -/
theorem limiterStep_local (st st2 : LimState) (id : String) (t : Nat)
    (h : lookupBudget st id = lookupBudget st2 id) :
    (limiterStep st id t).1 = (limiterStep st2 id t).1 := by
  unfold limiterStep
  rw [h]
  cases lookupBudget st2 id with
  | none => rfl
  | some b =>
    by_cases hw : t < b.windowStart + 60
    · simp [hw]
    · simp [hw]

/-- How many future admissions the limiter can still grant an identity
into the window that opened at s, given its stored budget.  Window starts
only move forward, so a window older than the current one can never be
admitted into again. -/
def windowBound (st : LimState) (id : String) (s : Nat) : Nat :=
  match lookupBudget st id with
  | none => 10
  | some b =>
    if s = b.windowStart then 10 - b.count
    else if b.windowStart < s then 10 else 0

/-- Counting admissions over a cons of tags. -/
theorem admittedCount_cons (r : ReqTag) (out : List ReqTag) (id : String)
    (s : Nat) :
    admittedCount (r :: out) id s =
      (if r.id == id && r.admitted && r.wstart == s then 1 else 0)
      + admittedCount out id s := by
  by_cases hr : (r.id == id && r.admitted && r.wstart == s) = true
  · simp [admittedCount, List.filter_cons, hr]
    omega
  · have hr2 : (r.id == id && r.admitted && r.wstart == s) = false := by
      simpa using hr
    simp [admittedCount, List.filter_cons, hr2]

/-- One limiter step consumes at least as much of a window's budget as
the admission it may grant. -/
theorem limiterStep_bound (st : LimState) (rid : String) (t : Nat)
    (id : String) (s : Nat) :
    (if (limiterStep st rid t).1.id == id && (limiterStep st rid t).1.admitted
        && ((limiterStep st rid t).1.wstart == s) then 1 else 0)
      + windowBound (limiterStep st rid t).2 id s ≤ windowBound st id s := by
  by_cases hid : rid = id
  · subst hid
    cases hb : lookupBudget st rid with
    | none =>
      have htag : (limiterStep st rid t).1 = ⟨rid, t, true, t⟩ := by
        unfold limiterStep
        simp only [hb]
      have hst1 : (limiterStep st rid t).2 = setBudget st rid ⟨t, 1⟩ := by
        unfold limiterStep
        simp only [hb]
      have hwb : windowBound st rid s = 10 := by
        unfold windowBound
        simp only [hb]
      have hwb1 : windowBound (setBudget st rid ⟨t, 1⟩) rid s =
          if s = t then 9 else if t < s then 10 else 0 := by
        unfold windowBound
        rw [lookupBudget_setBudget_self]
        rfl
      rw [htag, hst1, hwb, hwb1]
      simp only [Bool.and_eq_true, beq_iff_eq, decide_eq_true_eq,
        eq_self_iff_true, true_and, and_true, Bool.and_true, Bool.true_and]
      split_ifs <;> omega
    | some b =>
      by_cases hw : t < b.windowStart + 60
      · have htag : (limiterStep st rid t).1 =
            ⟨rid, t, decide (b.count + 1 ≤ 10), b.windowStart⟩ := by
          unfold limiterStep
          simp only [hb, hw, if_true]
        have hst1 : (limiterStep st rid t).2 =
            setBudget st rid ⟨b.windowStart, b.count + 1⟩ := by
          unfold limiterStep
          simp only [hb, hw, if_true]
        have hwb : windowBound st rid s =
            if s = b.windowStart then 10 - b.count
            else if b.windowStart < s then 10 else 0 := by
          unfold windowBound
          simp only [hb]
        have hwb1 : windowBound (setBudget st rid ⟨b.windowStart, b.count + 1⟩) rid s =
            if s = b.windowStart then 10 - (b.count + 1)
            else if b.windowStart < s then 10 else 0 := by
          unfold windowBound
          rw [lookupBudget_setBudget_self]
        rw [htag, hst1, hwb, hwb1]
        simp only [Bool.and_eq_true, beq_iff_eq, decide_eq_true_eq,
          eq_self_iff_true, true_and, and_true, Bool.and_true, Bool.true_and]
        split_ifs <;> omega
      · have hw' : b.windowStart + 60 ≤ t := Nat.le_of_not_lt hw
        have htag : (limiterStep st rid t).1 = ⟨rid, t, true, t⟩ := by
          unfold limiterStep
          simp only [hb, hw, if_false]
        have hst1 : (limiterStep st rid t).2 = setBudget st rid ⟨t, 1⟩ := by
          unfold limiterStep
          simp only [hb, hw, if_false]
        have hwb : windowBound st rid s =
            if s = b.windowStart then 10 - b.count
            else if b.windowStart < s then 10 else 0 := by
          unfold windowBound
          simp only [hb]
        have hwb1 : windowBound (setBudget st rid ⟨t, 1⟩) rid s =
            if s = t then 9 else if t < s then 10 else 0 := by
          unfold windowBound
          rw [lookupBudget_setBudget_self]
          rfl
        rw [htag, hst1, hwb, hwb1]
        simp only [Bool.and_eq_true, beq_iff_eq, decide_eq_true_eq,
          eq_self_iff_true, true_and, and_true, Bool.and_true, Bool.true_and]
        split_ifs <;> omega
  · have htid : (limiterStep st rid t).1.id = rid := (limiterStep_tag_id st rid t).1
    have hcond : ((limiterStep st rid t).1.id == id) = false := by
      rw [htid]
      exact beq_eq_false_iff_ne.mpr hid
    have hwb1 : windowBound (limiterStep st rid t).2 id s = windowBound st id s := by
      unfold windowBound
      rw [limiterStep_other st rid t id (fun hc => hid hc.symm)]
    rw [hwb1, hcond]
    simp

/-- Along any trace, an identity is admitted into a given window at most
as often as its remaining budget for that window allows. -/
theorem runTrace_bound (trace : List (String × Nat)) :
    ∀ (st : LimState) (id : String) (s : Nat),
    admittedCount (runTrace trace st).1 id s ≤ windowBound st id s := by
  induction trace with
  | nil => intro st id s; simp [runTrace, admittedCount]
  | cons p rest ih =>
    intro st id s
    obtain ⟨rid, t⟩ := p
    have hrun : (runTrace ((rid, t) :: rest) st).1 =
        (limiterStep st rid t).1 :: (runTrace rest (limiterStep st rid t).2).1 := by
      simp [runTrace]
    rw [hrun, admittedCount_cons]
    exact le_trans (Nat.add_le_add_left (ih (limiterStep st rid t).2 id s) _)
      (limiterStep_bound st rid t id s)

/-- From the empty limiter no identity is ever admitted more than 10
times into one window. -/
theorem runTrace_window_bound (trace : List (String × Nat)) (id : String)
    (s : Nat) : admittedCount (runTrace trace []).1 id s ≤ 10 := by
  have h := runTrace_bound trace [] id s
  simpa [windowBound, lookupBudget, List.find?] using h

/-- Running k more in-window requests of an identity whose budget already
counts c of them admits exactly the first 10 - c and denies the last. -/
theorem runTrace_in_window (id : String) (t0 : Nat) :
    ∀ (ts : List Nat) (st : LimState) (c : Nat),
    lookupBudget st id = some ⟨t0, c⟩ → 1 ≤ c → c ≤ 10 → c + ts.length = 11 →
    (∀ t ∈ ts, t < t0 + 60) →
    (runTrace (ts.map (fun t => (id, t))) st).1.map ReqTag.admitted =
      List.replicate (10 - c) true ++ [false] := by
  intro ts
  induction ts with
  | nil =>
    intro st c hb h1 h10 hlen hw
    exfalso
    simp only [List.length_nil] at hlen
    omega
  | cons t ts' ih =>
    intro st c hb h1 h10 hlen hw
    have hwt : t < t0 + 60 := hw t (by simp)
    have hstep_tag : (limiterStep st id t).1 = ⟨id, t, decide (c + 1 ≤ 10), t0⟩ := by
      unfold limiterStep
      simp only [hb]
      rw [if_pos hwt]
    have hstep_st : (limiterStep st id t).2 = setBudget st id ⟨t0, c + 1⟩ := by
      unfold limiterStep
      simp only [hb]
      rw [if_pos hwt]
    have hsplit : (runTrace ((t :: ts').map (fun t => (id, t))) st).1 =
        (limiterStep st id t).1 ::
          (runTrace (ts'.map (fun t => (id, t))) (limiterStep st id t).2).1 := by
      simp [runTrace]
    by_cases hc : c = 10
    · subst hc
      have hts0 : ts' = [] := by
        simp only [List.length_cons] at hlen
        exact List.eq_nil_of_length_eq_zero (by omega)
      subst hts0
      rw [hsplit]
      simp [runTrace, hstep_tag]
    · have hc9 : c + 1 ≤ 10 := by omega
      have hrec := ih (limiterStep st id t).2 (c + 1)
        (by rw [hstep_st]; exact lookupBudget_setBudget_self id ⟨t0, c + 1⟩ st)
        (by omega) (by omega)
        (by simp only [List.length_cons] at hlen; omega)
        (fun t2 ht2 => hw t2 (by simp [ht2]))
      rw [hsplit, List.map_cons, hrec, hstep_tag]
      have hd : decide (c + 1 ≤ 10) = true := by simp [hc9]
      have h10c : 10 - c = (10 - (c + 1)) + 1 := by omega
      rw [hd, h10c, List.replicate_succ]
      simp

/-- An identity whose budget is fresh gets its first 10 in-window
requests admitted and the 11th denied. -/
theorem eleventh_request_denied (st : LimState) (id : String) (t0 : Nat)
    (rest : List Nat) (hfresh : lookupBudget st id = none)
    (hlen : rest.length = 10) (hwin : ∀ t ∈ rest, t < t0 + 60) :
    (runTrace ((t0 :: rest).map (fun t => (id, t))) st).1.map ReqTag.admitted =
      List.replicate 10 true ++ [false] := by
  have hstep_tag : (limiterStep st id t0).1 = ⟨id, t0, true, t0⟩ := by
    unfold limiterStep
    simp only [hfresh]
  have hstep_st : (limiterStep st id t0).2 = setBudget st id ⟨t0, 1⟩ := by
    unfold limiterStep
    simp only [hfresh]
  have hrec := runTrace_in_window id t0 rest (limiterStep st id t0).2 1
    (by rw [hstep_st]; exact lookupBudget_setBudget_self id ⟨t0, 1⟩ st)
    (le_refl 1) (by omega) (by omega) hwin
  have hsplit : (runTrace ((t0 :: rest).map (fun t => (id, t))) st).1 =
      (limiterStep st id t0).1 ::
        (runTrace (rest.map (fun t => (id, t))) (limiterStep st id t0).2).1 := by
    simp [runTrace]
  rw [hsplit, List.map_cons, hrec, hstep_tag]
  rfl

/-- C8: with slowapi's "10/minute" fixed-window limiter, (1) over any
trace of requests from the fresh limiter, no identity is admitted more
than 10 times into any one 60-second window; (2) an identity with a
fresh budget making 11 requests inside one window sees the first 10
admitted and the 11th denied (RateLimited); (3) a request by one
identity never changes another identity's budget; and (4) the admission
decision for a request depends only on the requesting identity's own
budget, so one identity's exhaustion cannot affect another. -/
theorem c8_rate_limiter :
    (∀ (trace : List (String × Nat)) (id : String) (s : Nat),
      admittedCount (runTrace trace []).1 id s ≤ 10)
    ∧ (∀ (st : LimState) (id : String) (t0 : Nat) (rest : List Nat),
        lookupBudget st id = none → rest.length = 10 →
        (∀ t ∈ rest, t < t0 + 60) →
        (runTrace ((t0 :: rest).map (fun t => (id, t))) st).1.map ReqTag.admitted =
          List.replicate 10 true ++ [false])
    ∧ (∀ (st : LimState) (rid : String) (t : Nat) (id2 : String), id2 ≠ rid →
        lookupBudget (limiterStep st rid t).2 id2 = lookupBudget st id2)
    ∧ (∀ (st st2 : LimState) (id : String) (t : Nat),
        lookupBudget st id = lookupBudget st2 id →
        (limiterStep st id t).1 = (limiterStep st2 id t).1) :=
  ⟨runTrace_window_bound, eleventh_request_denied, limiterStep_other, limiterStep_local⟩

/-- Witness for C8: identity "a" making 11 requests at time 0, and
identities "b"/"c" unaffected by the state of others. -/
theorem c8_rate_limiter_witness :
    (lookupBudget [] "a" = none ∧ (List.replicate 10 (0 : Nat)).length = 10
      ∧ (∀ t ∈ List.replicate 10 (0 : Nat), t < 0 + 60)
      ∧ ("b" : String) ≠ "a"
      ∧ lookupBudget [("a", ⟨0, 10⟩)] "c" = lookupBudget [] "c")
    ∧ ((runTrace ((0 :: List.replicate 10 (0 : Nat)).map (fun t => ("a", t))) []).1.map
        ReqTag.admitted = List.replicate 10 true ++ [false])
    ∧ lookupBudget (limiterStep [] "a" 0).2 "b" = lookupBudget [] "b"
    ∧ (limiterStep [("a", ⟨0, 10⟩)] "c" 7).1 = (limiterStep [] "c" 7).1 :=
  ⟨⟨by decide, by decide, by decide, by decide, by decide⟩,
    c8_rate_limiter.2.1 [] "a" 0 (List.replicate 10 (0 : Nat)) (by decide) (by decide)
      (by decide),
    c8_rate_limiter.2.2.1 [] "a" 0 "b" (by decide),
    c8_rate_limiter.2.2.2 [("a", ⟨0, 10⟩)] [] "c" 7 (by decide)⟩
